import Mathlib

/-!
Shallow embedding of the core of the personal-notes application
(`src/notes_frontend/src/app/services/notes.service.ts` and
`src/notes_frontend/src/app/services/storage.service.ts`).

Modelling choices:
* A `Note` record mirrors the TypeScript `Note` model from the spec
  (all six fields are required strings / string lists).
* JavaScript runtime primitives are explicit parameters:
  `Date.parse` becomes a function `parse : String → Int`,
  `new Date(t).toISOString()` becomes `toISO : Int → String`,
  the current clock and generated ids become explicit arguments.
* `Array.prototype.sort` with a numeric comparator is modelled by a
  stable insertion sort on the comparator-induced order: ECMAScript
  guarantees a stable sort, and for a total preorder every stable sort
  produces the same list.
* Methods that mutate `this.notes` and call `persist()` are modelled as
  pure functions returning the new list together with a `Bool` recording
  whether `persist` was invoked.
* `localStorage` and `JSON.parse`/`JSON.stringify` (for the storage
  adapter) are modelled as environment functions returning `Except Unit`,
  so that a thrown exception is an explicit outcome; `try/catch` blocks
  in the source are translated to matches on that outcome.
-/

namespace NotesApp

/-- Data model of a note, from the spec §3 (the TypeScript model file is
referenced by the service as `../models/note.model`): fields `id`, `title`,
`content`, `tags`, `createdAt`, `updatedAt`, all required. -/
structure Note where
  id : String
  title : String
  content : String
  tags : List String
  createdAt : String
  updatedAt : String
deriving Repr, DecidableEq

/-- Model of JavaScript `String.prototype.toLowerCase` (ASCII case folding). -/
def jsToLower (s : String) : String := ⟨s.data.map Char.toLower⟩

/-- Remove leading whitespace characters from a character list. -/
def dropLeadingWs : List Char → List Char
  | [] => []
  | c :: cs => if c.isWhitespace then dropLeadingWs cs else c :: cs

/-- Model of JavaScript `String.prototype.trim`: remove leading and trailing
whitespace. -/
def jsTrim (s : String) : String :=
  ⟨dropLeadingWs ((dropLeadingWs s.data.reverse).reverse)⟩

/-- Check that `pat` occurs at the start of the second list. -/
def leadsChars : List Char → List Char → Bool
  | [], _ => true
  | _ :: _, [] => false
  | a :: as, b :: bs => a == b && leadsChars as bs

/-- Check that `pat` occurs as a contiguous run somewhere in the list. -/
def occursChars (pat : List Char) : List Char → Bool
  | [] => leadsChars pat []
  | c :: rest => leadsChars pat (c :: rest) || occursChars pat rest

/-- Model of JavaScript `s.includes(pat)`: substring containment. -/
def jsIncludes (s pat : String) : Bool := occursChars pat.data s.data

/-- Model of JavaScript `a || b` on strings: the empty string is falsy. -/
def jsOrElse (a b : String) : String := if a = "" then b else a

/-- Sort key used by `sortDescByUpdatedAt` in the source:
`Date.parse(n.updatedAt || n.createdAt || 0)` (the number `0` is coerced to
the string "0" by `Date.parse`). -/
def noteKey (parse : String → Int) (n : Note) : Int :=
  parse (jsOrElse n.updatedAt (jsOrElse n.createdAt "0"))

/-- Insert a note into a descending-sorted list, before the first element
whose key does not exceed its own: the insertion step of a stable sort for
the comparator `tb - ta` (an element earlier in the array stays before
later elements that compare equal). -/
def insertDesc (parse : String → Int) (a : Note) : List Note → List Note
  | [] => [a]
  | b :: l =>
    if noteKey parse b ≤ noteKey parse a then a :: b :: l
    else b :: insertDesc parse a l

/-- Model of the private `sortDescByUpdatedAt` (notes.service.ts lines
120-126): JavaScript stable sort with comparator `tb - ta`, i.e. sort so
that an element `a` precedes `b` when `noteKey b ≤ noteKey a`. ECMAScript
requires the sort to be stable, and for a total preorder all stable sorts
agree, so the structural insertion sort below is the canonical model. -/
def sortDescByUpdatedAt (parse : String → Int) : List Note → List Note
  | [] => []
  | a :: l => insertDesc parse a (sortDescByUpdatedAt parse l)

/-- Predicate of the filter inside `listNotes` (lines 43-48): the query
matches when it is contained in the case-folded title, content, or one of
the case-folded tags. -/
def matchesQuery (q : String) (n : Note) : Bool :=
  let inTitle := jsIncludes (jsToLower n.title) q
  let inContent := jsIncludes (jsToLower n.content) q
  let inTags := n.tags.any (fun t => jsIncludes (jsToLower t) q)
  inTitle || inContent || inTags

/-- Model of `listNotes(query?)` (lines 37-49). `none` models a call with
no argument; the source also returns the unfiltered list when `query` is
the empty string (falsy) or trims to the empty string. -/
def listNotes (parse : String → Int) (notes : List Note)
    (query : Option String) : List Note :=
  let list := sortDescByUpdatedAt parse notes
  match query with
  | none => list
  | some query =>
    if query = "" then list
    else
      let q := jsTrim (jsToLower query)
      if q = "" then list
      else list.filter (matchesQuery q)

/-- Model of `getNote(id)` (lines 55-57): first note with matching id. -/
def getNote (notes : List Note) (id : String) : Option Note :=
  notes.find? (fun n => n.id == id)

/-- Argument of `createNote`: `title` required, `content` and `tags`
optional. -/
structure CreatePayload where
  title : String
  content : Option String
  tags : Option (List String)

/-- Model of `createNote(payload)` (lines 64-78). `newId` models the value
of `this.generateId()` and `now` the value of `new Date().toISOString()`.
Returns the created note, the new collection (unshift then re-sort), and
whether `persist` was called (always true). -/
def createNote (parse : String → Int) (notes : List Note)
    (payload : CreatePayload) (newId now : String) :
    Note × List Note × Bool :=
  let note : Note :=
    { id := newId
      title := payload.title
      content := payload.content.getD ""
      tags := payload.tags.getD []
      createdAt := now
      updatedAt := now }
  (note, sortDescByUpdatedAt parse (note :: notes), true)

/-- Model of the object spread in `updateNote` (lines 91-95):
`{...stored, ...incoming, updatedAt: now}`. Every field of the TypeScript
`Note` type is required, so each field of the result other than
`updatedAt` is taken from `incoming`; the fields of `stored` are all
overwritten. -/
def mergeNote (stored incoming : Note) (now : String) : Note :=
  { id := incoming.id
    title := incoming.title
    content := incoming.content
    tags := incoming.tags
    createdAt := incoming.createdAt
    updatedAt := now }

/-- Replace the first note whose id equals `incoming.id` by the merged
note, as `findIndex` followed by an indexed assignment does in the source
(lines 86-96); `none` when no note matches. -/
def replaceFirstById (incoming : Note) (now : String) :
    List Note → Option (Note × List Note)
  | [] => none
  | n :: ns =>
    if n.id == incoming.id then
      let u := mergeNote n incoming now
      some (u, u :: ns)
    else
      match replaceFirstById incoming now ns with
      | none => none
      | some (u, ns2) => some (u, n :: ns2)

/-- Model of `updateNote(note)` (lines 85-100). Returns the result (the
updated note, or the thrown "Note not found" error), the collection after
the call, and whether `persist` was called. The throw happens before any
mutation, so in the error case the collection is returned unchanged and
nothing is persisted. -/
def updateNote (parse : String → Int) (notes : List Note)
    (incoming : Note) (now : String) :
    Except String Note × List Note × Bool :=
  match replaceFirstById incoming now notes with
  | none => (Except.error "Note not found", notes, false)
  | some (u, notes2) => (Except.ok u, sortDescByUpdatedAt parse notes2, true)

/-- Model of `deleteNote(id)` (lines 106-112): filter the collection, and
persist only when the length changed. Returns the new collection and
whether `persist` was called. -/
def deleteNote (notes : List Note) (id : String) : List Note × Bool :=
  let remaining := notes.filter (fun n => n.id != id)
  (remaining, remaining.length != notes.length)

/-- Element of a decoded stored payload as `sanitizeNotes` sees it: each
field may be absent. An absent field and the empty string are both falsy
in the `!n.id || ...` validity check of the source. -/
structure RawNote where
  id : Option String
  title : Option String
  content : Option String
  tags : Option (List String)
  createdAt : Option String
  updatedAt : Option String
deriving Repr, DecidableEq

/-- JavaScript falsiness of an optional string field: absent or empty. -/
def falsyField : Option String → Bool
  | none => true
  | some s => s == ""

/-- Model of the per-element body of `sanitizeNotes` (lines 132-144):
drop the element when `id`, `title`, `createdAt` or `updatedAt` is falsy,
otherwise coerce fields, defaulting `content` to the empty string and
`tags` to the empty list. -/
def sanitizeOne (x : RawNote) : Option Note :=
  if falsyField x.id || falsyField x.title ||
      falsyField x.createdAt || falsyField x.updatedAt then
    none
  else
    some
      { id := x.id.getD ""
        title := x.title.getD ""
        content := x.content.getD ""
        createdAt := x.createdAt.getD ""
        updatedAt := x.updatedAt.getD ""
        tags := x.tags.getD [] }

/-- Model of `sanitizeNotes` (lines 128-146) on a decoded array. -/
def sanitizeNotes (items : List RawNote) : List Note :=
  items.filterMap sanitizeOne

/-- Decoded result of `storage.read` at construction time: `null`
(store unavailable, key absent, or JSON decode failure), an array of raw
notes, or a JSON value that is not an array. -/
inductive StoredVal
  | null
  | arr (items : List RawNote)
  | nonArr
deriving Repr, DecidableEq

/-- Decoded form of a persisted well-typed note: `JSON.stringify` followed
by `JSON.parse` reproduces every field, all present. -/
def toRaw (n : Note) : RawNote :=
  { id := some n.id
    title := some n.title
    content := some n.content
    tags := some n.tags
    createdAt := some n.createdAt
    updatedAt := some n.updatedAt }

/-- Stored value produced by `persist()` (lines 116-118): the current
collection, serialized. -/
def persistedVal (notes : List Note) : StoredVal :=
  StoredVal.arr (notes.map toRaw)

/-- Content of the first seed note, copied from the source. -/
def welcomeContent : String :=
  "This is your first note. Use the app to create, edit, search, and delete notes. Your notes are stored locally in your browser."

/-- Content of the second seed note, copied from the source. -/
def tipsContent : String :=
  "Use the search to quickly find notes by title, content, or tags. Notes are sorted by most recently updated."

/-- First seed note of `seedNotes` (lines 154-162): timestamps one hour
before `nowMs`. -/
def welcomeSeed (toISO : Int → String) (id1 : String) (nowMs : Int) : Note :=
  { id := id1
    title := "Welcome to Notes"
    content := welcomeContent
    createdAt := toISO (nowMs - 1000 * 60 * 60)
    updatedAt := toISO (nowMs - 1000 * 60 * 60)
    tags := ["welcome", "getting-started"] }

/-- Second seed note of `seedNotes` (lines 163-171): timestamps ten
minutes before `nowMs`. -/
def tipsSeed (toISO : Int → String) (id2 : String) (nowMs : Int) : Note :=
  { id := id2
    title := "Tips"
    content := tipsContent
    createdAt := toISO (nowMs - 1000 * 60 * 10)
    updatedAt := toISO (nowMs - 1000 * 60 * 10)
    tags := ["tips", "productivity"] }

/-- Model of `seedNotes()` (lines 148-175): the two fixed notes, sorted. -/
def seedNotes (parse : String → Int) (toISO : Int → String)
    (id1 id2 : String) (nowMs : Int) : List Note :=
  sortDescByUpdatedAt parse [welcomeSeed toISO id1 nowMs, tipsSeed toISO id2 nowMs]

/-- Result of repository construction: the initial collection and whether
the seed-and-persist path was taken. -/
structure InitResult where
  notes : List Note
  seeded : Bool
deriving Repr, DecidableEq

/-- Model of the constructor (lines 20-29): if the stored value is an
array of positive length, sanitize and sort it; otherwise install the
seed notes and persist. Note that the length check precedes
sanitization. -/
def initRepo (parse : String → Int) (toISO : Int → String)
    (stored : StoredVal) (id1 id2 : String) (nowMs : Int) : InitResult :=
  match stored with
  | StoredVal.arr items =>
    if items.length > 0 then
      { notes := sortDescByUpdatedAt parse (sanitizeNotes items), seeded := false }
    else
      { notes := seedNotes parse toISO id1 id2 nowMs, seeded := true }
  | _ => { notes := seedNotes parse toISO id1 id2 nowMs, seeded := true }

/-! Storage adapter (`storage.service.ts`). Exceptions of the JavaScript
runtime are modelled with `Except Unit`; a `try { .. } catch { .. }` block
becomes a match on that outcome. -/

/-- A usable `localStorage` object: its three methods, each of which may
throw. -/
structure LocalStore where
  getItemR : String → Except Unit (Option String)
  setItemR : String → String → Except Unit Unit
  removeItemR : String → Except Unit Unit

/-- Environment seen by the private `storage` getter (storage.service.ts
lines 20-36): no usable store (missing global, falsy store, or missing
methods), an access that throws, or a usable store. -/
inductive StorageEnv
  | noStore
  | storeThrows
  | store (ls : LocalStore)

/-- Model of the private `storage` getter: `null` when the store is
missing or the access throws (the catch returns null), otherwise the
store. -/
def storageRef : StorageEnv → Option LocalStore
  | StorageEnv.noStore => none
  | StorageEnv.storeThrows => none
  | StorageEnv.store ls => some ls

/-- Model of `read(key)` (lines 43-58). `jsonParse` models `JSON.parse`
on the raw string; both the outer and the inner `try/catch` of the source
are translated, so the overall outcome records whether the method itself
could throw. -/
def readStore {α : Type} (env : StorageEnv)
    (jsonParse : String → Except Unit α) (key : String) :
    Except Unit (Option α) :=
  match storageRef env with
  | none => Except.ok none
  | some s =>
    match s.getItemR key with
    | Except.error _ => Except.ok none
    | Except.ok none => Except.ok none
    | Except.ok (some raw) =>
      match jsonParse raw with
      | Except.error _ => Except.ok none
      | Except.ok v => Except.ok (some v)

/-- Model of `write(key, value)` (lines 65-74). `stringify` models
`JSON.stringify`; the result records the performed write (key and
payload) or `none` when the method no-oped. -/
def writeStore {α : Type} (env : StorageEnv)
    (stringify : α → Except Unit String) (key : String) (value : α) :
    Except Unit (Option (String × String)) :=
  match storageRef env with
  | none => Except.ok none
  | some s =>
    match stringify value with
    | Except.error _ => Except.ok none
    | Except.ok payload =>
      match s.setItemR key payload with
      | Except.error _ => Except.ok none
      | Except.ok _ => Except.ok (some (key, payload))

/-- Model of `remove(key)` (lines 80-88): the result records the
performed removal or `none` when the method no-oped. -/
def removeStore (env : StorageEnv) (key : String) :
    Except Unit (Option String) :=
  match storageRef env with
  | none => Except.ok none
  | some s =>
    match s.removeItemR key with
    | Except.error _ => Except.ok none
    | Except.ok _ => Except.ok (some key)

/-- Validity of a note for the round trip through `sanitizeNotes`: the
four required fields are non-empty. -/
def validNote (n : Note) : Prop :=
  n.id ≠ "" ∧ n.title ≠ "" ∧ n.createdAt ≠ "" ∧ n.updatedAt ≠ ""

instance : DecidablePred validNote := fun n => by
  unfold validNote; infer_instance

/-- Concrete stand-in for `Date.parse` used in witnesses: decimal digits. -/
def demoParse (s : String) : Int := (s.toNat?.getD 0 : Nat)

/-- Concrete stand-in for `toISOString` used in witnesses. -/
def demoISO (t : Int) : String := toString t

/-- Concrete note used in witnesses. -/
def demoNoteA : Note := ⟨"a1", "Alpha", "first body", ["x"], "100", "100"⟩

/-- Concrete note used in witnesses. -/
def demoNoteB : Note := ⟨"b2", "Beta", "second body", ["y"], "200", "300"⟩

/-- Concrete collection used in witnesses. -/
def demoNotes : List Note := [demoNoteA, demoNoteB]

/-! General lemmas about the sort used by every repository operation. -/

/-- Inserting is a permutation of consing. -/
theorem insertDesc_perm (parse : String → Int) (a : Note) (l : List Note) :
    (insertDesc parse a l).Perm (a :: l) := by
  induction l with
  | nil => exact List.Perm.refl _
  | cons b l ih =>
    unfold insertDesc
    split
    · exact List.Perm.refl _
    · exact (ih.cons b).trans (List.Perm.swap a b l)

/-- Sorting is a permutation of the input collection. -/
theorem sortDesc_perm (parse : String → Int) (l : List Note) :
    (sortDescByUpdatedAt parse l).Perm l := by
  induction l with
  | nil => exact List.Perm.refl _
  | cons a l ih =>
    exact (insertDesc_perm parse a _).trans (ih.cons a)

/-- Inserting preserves the descending pairwise invariant. -/
theorem insertDesc_pairwise (parse : String → Int) (a : Note) (l : List Note)
    (h : l.Pairwise (fun x y => noteKey parse y ≤ noteKey parse x)) :
    (insertDesc parse a l).Pairwise
      (fun x y => noteKey parse y ≤ noteKey parse x) := by
  induction l with
  | nil => simp [insertDesc]
  | cons b l ih =>
    obtain ⟨hb, hl⟩ := List.pairwise_cons.mp h
    unfold insertDesc
    split
    · next hba =>
      refine List.pairwise_cons.mpr ⟨?_, List.pairwise_cons.mpr ⟨hb, hl⟩⟩
      intro y hy
      rcases List.mem_cons.mp hy with rfl | hm
      · exact hba
      · exact le_trans (hb y hm) hba
    · next hba =>
      have hab : noteKey parse a ≤ noteKey parse b := le_of_not_le hba
      refine List.pairwise_cons.mpr ⟨?_, ih hl⟩
      intro y hy
      rcases List.mem_cons.mp ((insertDesc_perm parse a l).mem_iff.mp hy) with
        rfl | hm
      · exact hab
      · exact hb y hm

/-- Sorting produces a list that is pairwise descending on the sort key. -/
theorem sortDesc_pairwise (parse : String → Int) (l : List Note) :
    (sortDescByUpdatedAt parse l).Pairwise
      (fun a b => noteKey parse b ≤ noteKey parse a) := by
  induction l with
  | nil => exact List.Pairwise.nil
  | cons a l ih => exact insertDesc_pairwise parse a _ ih

/-- On a note whose `updatedAt` is non-empty the sort key is the parsed
`updatedAt`. -/
theorem noteKey_of_updatedAt (parse : String → Int) (n : Note)
    (h : n.updatedAt ≠ "") : noteKey parse n = parse n.updatedAt := by
  unfold noteKey jsOrElse
  rw [if_neg h]

/-- C5: the no-query result is a permutation of the collection and is
pairwise descending on the parsed `updatedAt`. -/
theorem listNotes_no_query_sorted (parse : String → Int) (notes : List Note)
    (h : ∀ n ∈ notes, n.updatedAt ≠ "") :
    (listNotes parse notes none).Perm notes ∧
    (listNotes parse notes none).Pairwise
      (fun a b => parse b.updatedAt ≤ parse a.updatedAt) := by
  have hp := sortDesc_pairwise parse notes
  have hperm := sortDesc_perm parse notes
  constructor
  · simpa [listNotes] using hperm
  · have hres : (sortDescByUpdatedAt parse notes).Pairwise
        (fun a b => parse b.updatedAt ≤ parse a.updatedAt) := by
      refine hp.imp_of_mem ?_
      intro a b ha hb hab
      rw [noteKey_of_updatedAt parse a (h a (hperm.mem_iff.mp ha)),
        noteKey_of_updatedAt parse b (h b (hperm.mem_iff.mp hb))] at hab
      exact hab
    simpa [listNotes] using hres

theorem listNotes_no_query_sorted_witness :
    ((∀ n ∈ demoNotes, n.updatedAt ≠ "") ∧
      (listNotes demoParse demoNotes none).Perm demoNotes ∧
      (listNotes demoParse demoNotes none).Pairwise
        (fun a b => demoParse b.updatedAt ≤ demoParse a.updatedAt)) :=
  ⟨by decide, listNotes_no_query_sorted demoParse demoNotes (by decide)⟩

/-- C7: deleting an id that matches no note raises no error, leaves the
collection unchanged, and does not write to the persisted mirror. -/
theorem deleteNote_missing_id (notes : List Note) (id : String)
    (h : ∀ n ∈ notes, n.id ≠ id) :
    deleteNote notes id = (notes, false) := by
  unfold deleteNote
  have hf : notes.filter (fun n => n.id != id) = notes := by
    apply List.filter_eq_self.mpr
    intro n hn
    simpa using h n hn
  simp [hf]

theorem deleteNote_missing_id_witness :
    ((∀ n ∈ demoNotes, n.id ≠ "zz") ∧
      deleteNote demoNotes "zz" = (demoNotes, false)) :=
  ⟨by decide, deleteNote_missing_id demoNotes "zz" (by decide)⟩

/-- When no note in the collection has the incoming id, the find-and-replace
step of `updateNote` fails. -/
theorem replaceFirstById_eq_none (incoming : Note) (now : String)
    (notes : List Note) (h : ∀ n ∈ notes, n.id ≠ incoming.id) :
    replaceFirstById incoming now notes = none := by
  induction notes with
  | nil => rfl
  | cons n ns ih =>
    have hn : (n.id == incoming.id) = false := by
      simpa using h n (List.mem_cons_self n ns)
    simp [replaceFirstById, hn,
      ih (fun m hm => h m (List.mem_cons_of_mem n hm))]

/-- C6: updating a note whose id is not in the collection returns the
"Note not found" error, leaves the collection unchanged, and does not
persist. -/
theorem updateNote_missing_id (parse : String → Int) (notes : List Note)
    (incoming : Note) (now : String)
    (h : ∀ n ∈ notes, n.id ≠ incoming.id) :
    updateNote parse notes incoming now =
      (Except.error "Note not found", notes, false) := by
  unfold updateNote
  rw [replaceFirstById_eq_none incoming now notes h]

theorem updateNote_missing_id_witness :
    ((∀ n ∈ demoNotes, n.id ≠ (⟨"zz", "T", "", [], "1", "1"⟩ : Note).id) ∧
      updateNote demoParse demoNotes ⟨"zz", "T", "", [], "1", "1"⟩ "9" =
        (Except.error "Note not found", demoNotes, false)) :=
  ⟨by decide,
    updateNote_missing_id demoParse demoNotes ⟨"zz", "T", "", [], "1", "1"⟩ "9"
      (by decide)⟩

/-! Lemmas for whitespace-only queries (C10). -/

/-- Case folding fixes whitespace characters. -/
theorem toLower_of_ws (c : Char) (h : c.isWhitespace = true) :
    c.toLower = c := by
  simp only [Char.isWhitespace, Bool.or_eq_true, decide_eq_true_eq] at h
  rcases h with ((h | h) | h) | h <;> subst h <;> decide

/-- Dropping leading whitespace of an all-whitespace list gives the empty
list. -/
theorem dropLeadingWs_of_ws (l : List Char)
    (h : ∀ c ∈ l, c.isWhitespace = true) : dropLeadingWs l = [] := by
  induction l with
  | nil => rfl
  | cons c cs ih =>
    simp [dropLeadingWs, h c (List.mem_cons_self c cs),
      ih (fun d hd => h d (List.mem_cons_of_mem c hd))]

/-- Trimming an all-whitespace string gives the empty string. -/
theorem jsTrim_of_ws (s : String) (h : ∀ c ∈ s.data, c.isWhitespace = true) :
    jsTrim s = "" := by
  unfold jsTrim
  rw [dropLeadingWs_of_ws s.data.reverse
    (fun c hc => h c (List.mem_reverse.mp hc))]
  rfl

/-- Case folding an all-whitespace string keeps every character whitespace. -/
theorem jsToLower_ws (s : String) (h : ∀ c ∈ s.data, c.isWhitespace = true) :
    ∀ c ∈ (jsToLower s).data, c.isWhitespace = true := by
  intro c hc
  unfold jsToLower at hc
  simp only [List.mem_map] at hc
  obtain ⟨d, hd, rfl⟩ := hc
  rw [toLower_of_ws d (h d hd)]
  exact h d hd

/-- C10: a whitespace-only query is treated like no query at all. -/
theorem listNotes_ws_query (parse : String → Int) (notes : List Note)
    (query : String) (h : ∀ c ∈ query.data, c.isWhitespace = true) :
    listNotes parse notes (some query) = listNotes parse notes none := by
  have htrim : jsTrim (jsToLower query) = "" :=
    jsTrim_of_ws _ (jsToLower_ws query h)
  by_cases hq : query = "" <;> simp [listNotes, hq, htrim]

theorem listNotes_ws_query_witness :
    ((∀ c ∈ (" \t ").data, c.isWhitespace = true) ∧
      listNotes demoParse demoNotes (some " \t ") =
        listNotes demoParse demoNotes none) :=
  ⟨by decide, listNotes_ws_query demoParse demoNotes " \t " (by decide)⟩

/-- C4: with a query whose case-folded trim is non-empty, the result is
exactly the notes matched by the case-folded trimmed query, sorted
descending on the parsed `updatedAt`. -/
theorem listNotes_query_filters (parse : String → Int) (notes : List Note)
    (query : String) (hq : jsTrim (jsToLower query) ≠ "")
    (h : ∀ n ∈ notes, n.updatedAt ≠ "") :
    (∀ n, n ∈ listNotes parse notes (some query) ↔
      n ∈ notes ∧ matchesQuery (jsTrim (jsToLower query)) n = true) ∧
    (listNotes parse notes (some query)).Pairwise
      (fun a b => parse b.updatedAt ≤ parse a.updatedAt) := by
  have hqne : query ≠ "" := by
    intro he
    apply hq
    rw [he]
    rfl
  have hl : listNotes parse notes (some query) =
      (sortDescByUpdatedAt parse notes).filter
        (matchesQuery (jsTrim (jsToLower query))) := by
    simp [listNotes, hqne, hq]
  have hperm := sortDesc_perm parse notes
  constructor
  · intro n
    rw [hl, List.mem_filter, hperm.mem_iff]
  · rw [hl]
    have hs : (List.filter (matchesQuery (jsTrim (jsToLower query)))
        (sortDescByUpdatedAt parse notes)).Pairwise
        (fun a b => noteKey parse b ≤ noteKey parse a) :=
      List.Pairwise.sublist (List.filter_sublist _)
        (sortDesc_pairwise parse notes)
    refine hs.imp_of_mem ?_
    intro a b ha hb hab
    have ha2 : a ∈ notes := hperm.mem_iff.mp ((List.filter_sublist _).subset ha)
    have hb2 : b ∈ notes := hperm.mem_iff.mp ((List.filter_sublist _).subset hb)
    rw [noteKey_of_updatedAt parse a (h a ha2),
      noteKey_of_updatedAt parse b (h b hb2)] at hab
    exact hab

theorem listNotes_query_filters_witness :
    (jsTrim (jsToLower "BET") ≠ "" ∧ (∀ n ∈ demoNotes, n.updatedAt ≠ "") ∧
      ((∀ n, n ∈ listNotes demoParse demoNotes (some "BET") ↔
          n ∈ demoNotes ∧ matchesQuery (jsTrim (jsToLower "BET")) n = true) ∧
        (listNotes demoParse demoNotes (some "BET")).Pairwise
          (fun a b => demoParse b.updatedAt ≤ demoParse a.updatedAt))) :=
  ⟨by decide, by decide,
    listNotes_query_filters demoParse demoNotes "BET" (by decide) (by decide)⟩

/-- On a list whose only element satisfying `p` is `x`, `find?` returns
`x` whenever `x` is a member. -/
theorem find_eq_some_of_unique {α : Type} {p : α → Bool} {x : α}
    {l : List α} (hx : x ∈ l) (hpx : p x = true)
    (huniq : ∀ y ∈ l, p y = true → y = x) :
    l.find? p = some x := by
  induction l with
  | nil => cases hx
  | cons a as ih =>
    by_cases hpa : p a = true
    · rw [List.find?_cons_of_pos _ hpa]
      rw [huniq a (List.mem_cons_self a as) hpa]
    · rw [List.find?_cons_of_neg _ (by simpa using hpa)]
      have hxas : x ∈ as := by
        rcases List.mem_cons.mp hx with rfl | hm
        · exact absurd hpx hpa
        · exact hm
      exact ih hxas (fun y hy hpy => huniq y (List.mem_cons_of_mem a hy) hpy)

/-- C9: creating a note with a fresh id and reading it back by id yields
the created note, whose fields come from the payload (content defaulting
to the empty string, tags to the empty list) and whose `createdAt` equals
its `updatedAt`. -/
theorem createNote_then_getNote (parse : String → Int) (notes : List Note)
    (payload : CreatePayload) (newId now : String)
    (hfresh : ∀ n ∈ notes, n.id ≠ newId) :
    getNote (createNote parse notes payload newId now).2.1 newId =
        some (createNote parse notes payload newId now).1 ∧
      (createNote parse notes payload newId now).1.title = payload.title ∧
      (createNote parse notes payload newId now).1.content =
        payload.content.getD "" ∧
      (createNote parse notes payload newId now).1.tags = payload.tags.getD [] ∧
      (createNote parse notes payload newId now).1.createdAt =
        (createNote parse notes payload newId now).1.updatedAt := by
  have hperm : (createNote parse notes payload newId now).2.1.Perm
      ((createNote parse notes payload newId now).1 :: notes) :=
    sortDesc_perm parse _
  refine ⟨?_, rfl, rfl, rfl, rfl⟩
  apply find_eq_some_of_unique
  · exact hperm.mem_iff.mpr (List.mem_cons_self _ _)
  · simp [createNote]
  · intro y hy hpy
    rcases List.mem_cons.mp (hperm.mem_iff.mp hy) with rfl | hm
    · rfl
    · exact absurd (by simpa using hpy) (hfresh y hm)

theorem createNote_then_getNote_witness :
    ((∀ n ∈ demoNotes, n.id ≠ "fresh9") ∧
      getNote (createNote demoParse demoNotes ⟨"New", none, none⟩
          "fresh9" "400").2.1 "fresh9" =
        some (createNote demoParse demoNotes ⟨"New", none, none⟩
          "fresh9" "400").1) :=
  ⟨by decide,
    (createNote_then_getNote demoParse demoNotes ⟨"New", none, none⟩
      "fresh9" "400" (by decide)).1⟩

/-! Claim C1: the object spread in `updateNote` lets a caller-supplied
`createdAt` overwrite the stored one. -/

/-- Stored note of the C1 counterexample. -/
def cexStored : Note := ⟨"n1", "Title", "body", [], "100", "100"⟩

/-- Caller-supplied note of the C1 counterexample: same id, different
`createdAt`. -/
def cexIncoming : Note := ⟨"n1", "Title", "body", [], "999", "100"⟩

/-- C1 counterexample: the pre-update stored note has `createdAt` "100",
but after `updateNote` with a caller-supplied `createdAt` of "999" the
stored note carries "999" — `createdAt` is not preserved. -/
theorem updateNote_createdAt_cex :
    cexStored.createdAt = "100" ∧
    (updateNote demoParse [cexStored] cexIncoming "300").2.1.map Note.createdAt
      = ["999"] := by decide

/-- Any successful find-and-replace returns a merged note whose `id` and
`createdAt` come from the caller and whose `updatedAt` is `now`. -/
theorem replaceFirstById_fields (incoming : Note) (now : String)
    (notes : List Note) (u : Note) (l2 : List Note)
    (h : replaceFirstById incoming now notes = some (u, l2)) :
    u.id = incoming.id ∧ u.createdAt = incoming.createdAt ∧
      u.updatedAt = now := by
  induction notes generalizing u l2 with
  | nil => cases h
  | cons n ns ih =>
    unfold replaceFirstById at h
    split at h
    · simp only [Option.some.injEq, Prod.mk.injEq] at h
      rw [← h.1]
      exact ⟨rfl, rfl, rfl⟩
    · cases hin : replaceFirstById incoming now ns with
      | none =>
        rw [hin] at h
        cases h
      | some p =>
        obtain ⟨u2, ns2⟩ := p
        rw [hin] at h
        simp only [Option.some.injEq, Prod.mk.injEq] at h
        obtain ⟨rfl, -⟩ := h
        exact ih u2 ns2 hin

/-- C1 amended: a successful `updateNote` returns a note with the
caller-supplied `id` and `createdAt` and with `updatedAt` set to `now`;
relative to any stored note found under the incoming id, `updatedAt` does
not decrease provided the clock is not behind that stored timestamp.
`createdAt` is preserved only when the caller passes the stored value. -/
theorem updateNote_ok_fields (parse : String → Int) (notes : List Note)
    (incoming : Note) (now : String) (u : Note)
    (hu : (updateNote parse notes incoming now).1 = Except.ok u) :
    u.id = incoming.id ∧ u.updatedAt = now ∧
      u.createdAt = incoming.createdAt ∧
      (∀ n0, getNote notes incoming.id = some n0 →
        parse n0.updatedAt ≤ parse now →
        parse n0.updatedAt ≤ parse u.updatedAt) := by
  unfold updateNote at hu
  split at hu
  · cases hu
  · next u2 notes2 heq =>
    simp only [Except.ok.injEq] at hu
    subst hu
    obtain ⟨h1, h2, h3⟩ := replaceFirstById_fields incoming now notes u2 notes2 heq
    refine ⟨h1, h3, h2, ?_⟩
    intro n0 _ hle
    rw [h3]
    exact hle

theorem updateNote_ok_fields_witness :
    ((updateNote demoParse [cexStored] cexIncoming "300").1 =
        Except.ok (⟨"n1", "Title", "body", [], "999", "300"⟩ : Note) ∧
      (⟨"n1", "Title", "body", [], "999", "300"⟩ : Note).id = cexIncoming.id ∧
      (⟨"n1", "Title", "body", [], "999", "300"⟩ : Note).updatedAt = "300") :=
  ⟨rfl,
    (updateNote_ok_fields demoParse [cexStored] cexIncoming "300"
        ⟨"n1", "Title", "body", [], "999", "300"⟩ rfl).1,
    (updateNote_ok_fields demoParse [cexStored] cexIncoming "300"
        ⟨"n1", "Title", "body", [], "999", "300"⟩ rfl).2.1⟩

/-! Claim C2: seeding happens only when the stored value is not a
non-empty array; a non-empty array of invalid elements yields an empty,
unseeded collection. -/

/-- RawNote with every field absent: the decoded form of an empty JSON
object. -/
def blankRaw : RawNote := ⟨none, none, none, none, none, none⟩

/-- C2 counterexample: the stored payload decoding to the one-element
array holding an empty object is non-empty, every element is dropped by
sanitization, and initialization yields the empty collection without
installing the seed notes and without persisting. -/
theorem initRepo_all_invalid_cex :
    sanitizeNotes [blankRaw] = [] ∧
    initRepo demoParse demoISO (StoredVal.arr [blankRaw]) "s1" "s2" 1000000 =
      { notes := [], seeded := false } := by decide

/-- C2 amended: when the stored value is null, a non-array, or an empty
array, initialization installs exactly the two seed notes (titled
"Welcome to Notes" and "Tips", with timestamps one hour and ten minutes
before the current time) and persists; when it is a non-empty array whose
elements are all dropped by sanitization, initialization yields the empty
collection and does not persist. -/
theorem initRepo_seeding_amended (parse : String → Int) (toISO : Int → String)
    (id1 id2 : String) (nowMs : Int) :
    (∀ stored : StoredVal,
      stored = StoredVal.null ∨ stored = StoredVal.nonArr ∨
        stored = StoredVal.arr [] →
      (initRepo parse toISO stored id1 id2 nowMs).notes.Perm
          [welcomeSeed toISO id1 nowMs, tipsSeed toISO id2 nowMs] ∧
        (initRepo parse toISO stored id1 id2 nowMs).seeded = true) ∧
    (∀ items : List RawNote, items ≠ [] → sanitizeNotes items = [] →
      initRepo parse toISO (StoredVal.arr items) id1 id2 nowMs =
        { notes := [], seeded := false }) := by
  constructor
  · rintro stored (rfl | rfl | rfl) <;>
      exact ⟨sortDesc_perm parse _, rfl⟩
  · intro items hne hsan
    have hlen : 0 < items.length := List.length_pos.mpr hne
    simp [initRepo, hlen, hsan, sortDescByUpdatedAt]

theorem initRepo_seeding_amended_witness :
    ((initRepo demoParse demoISO StoredVal.null "s1" "s2" 7).notes.Perm
        [welcomeSeed demoISO "s1" 7, tipsSeed demoISO "s2" 7] ∧
      initRepo demoParse demoISO (StoredVal.arr [blankRaw]) "s1" "s2" 7 =
        { notes := [], seeded := false }) :=
  ⟨((initRepo_seeding_amended demoParse demoISO "s1" "s2" 7).1
      StoredVal.null (Or.inl rfl)).1,
    (initRepo_seeding_amended demoParse demoISO "s1" "s2" 7).2
      [blankRaw] (by decide) (by decide)⟩

/-! Claim C3: the persist/reinitialize round trip. -/

/-- C3 counterexample: the collection produced by creating a note with an
empty title (the type of createNote allows it, and the core performs no
validation) is non-empty, yet the persist/reinitialize round trip drops
the note: the reinitialized collection is empty although no reseeding was
triggered. -/
theorem roundtrip_cex :
    (createNote demoParse [] ⟨"", none, none⟩ "id9" "500").2.1 ≠ [] ∧
    initRepo demoParse demoISO
        (persistedVal (createNote demoParse [] ⟨"", none, none⟩ "id9" "500").2.1)
        "s1" "s2" 0 =
      { notes := [], seeded := false } := by decide

/-- Sanitization restores a persisted note whose four required fields are
non-empty. -/
theorem sanitizeOne_toRaw (n : Note) (hv : validNote n) :
    sanitizeOne (toRaw n) = some n := by
  obtain ⟨h1, h2, h3, h4⟩ := hv
  simp [sanitizeOne, toRaw, falsyField, h1, h2, h3, h4]

/-- Sanitization restores any persisted collection of valid notes. -/
theorem sanitize_roundtrip (m : List Note) (hm : ∀ n ∈ m, validNote n) :
    sanitizeNotes (m.map toRaw) = m := by
  induction m with
  | nil => rfl
  | cons n ns ih =>
    have h1 := sanitizeOne_toRaw n (hm n (List.mem_cons_self n ns))
    have h2 := ih (fun d hd => hm d (List.mem_cons_of_mem n hd))
    simp only [sanitizeNotes, List.map_cons, List.filterMap_cons, h1] at h2 ⊢
    rw [h2]

/-- C3 amended: for a non-empty collection in which every note has
non-empty `id`, `title`, `createdAt` and `updatedAt` (all notes produced
by the operations satisfy this when created with non-empty titles),
persisting and reinitializing reproduces the same set of notes, with no
reseeding. -/
theorem roundtrip_amended (parse : String → Int) (toISO : Int → String)
    (l : List Note) (id1 id2 : String) (nowMs : Int)
    (hne : l ≠ []) (hv : ∀ n ∈ l, validNote n) :
    (initRepo parse toISO (persistedVal l) id1 id2 nowMs).notes.Perm l ∧
    (initRepo parse toISO (persistedVal l) id1 id2 nowMs).seeded = false := by
  have hlen : 0 < (l.map toRaw).length := by
    simpa using List.length_pos.mpr hne
  have hstep : initRepo parse toISO (persistedVal l) id1 id2 nowMs =
      { notes := sortDescByUpdatedAt parse (sanitizeNotes (l.map toRaw)),
        seeded := false } := by
    simp [initRepo, persistedVal, hlen, hne]
  rw [hstep, sanitize_roundtrip l hv]
  exact ⟨sortDesc_perm parse l, rfl⟩

theorem roundtrip_amended_witness :
    ((initRepo demoParse demoISO (persistedVal demoNotes) "s1" "s2" 0).notes.Perm
        demoNotes ∧
      (initRepo demoParse demoISO (persistedVal demoNotes) "s1" "s2" 0).seeded =
        false) :=
  roundtrip_amended demoParse demoISO demoNotes "s1" "s2" 0 (by decide)
    (by decide)

/-- C8: for every environment and key, `read` either returns null or
returns the successfully decoded payload, and `read`, `write` and
`remove` all terminate with a returned value, never with a thrown
exception. -/
theorem storage_never_throws {α : Type} (env : StorageEnv) (key : String)
    (jsonParse : String → Except Unit α) (stringify : α → Except Unit String)
    (value : α) :
    (∃ r : Option α, readStore env jsonParse key = Except.ok r) ∧
    (readStore env jsonParse key = Except.ok none ∨
      ∃ s raw v, storageRef env = some s ∧
        s.getItemR key = Except.ok (some raw) ∧
        jsonParse raw = Except.ok v ∧
        readStore env jsonParse key = Except.ok (some v)) ∧
    (∃ w : Option (String × String),
      writeStore env stringify key value = Except.ok w) ∧
    (∃ r : Option String, removeStore env key = Except.ok r) := by
  have hread : readStore env jsonParse key = Except.ok none ∨
      ∃ s raw v, storageRef env = some s ∧
        s.getItemR key = Except.ok (some raw) ∧
        jsonParse raw = Except.ok v ∧
        readStore env jsonParse key = Except.ok (some v) := by
    cases hs1 : storageRef env with
    | none => exact Or.inl (by simp [readStore, hs1])
    | some s =>
      cases hs2 : s.getItemR key with
      | error e => exact Or.inl (by simp [readStore, hs1, hs2])
      | ok o =>
        cases o with
        | none => exact Or.inl (by simp [readStore, hs1, hs2])
        | some raw =>
          cases hs3 : jsonParse raw with
          | error e => exact Or.inl (by simp [readStore, hs1, hs2, hs3])
          | ok v =>
            exact Or.inr ⟨s, raw, v, rfl, hs2, hs3,
              by simp [readStore, hs1, hs2, hs3]⟩
  refine ⟨?_, hread, ?_, ?_⟩
  · rcases hread with h | ⟨_, _, v, _, _, _, h⟩
    · exact ⟨none, h⟩
    · exact ⟨some v, h⟩
  · cases hs1 : storageRef env with
    | none => exact ⟨none, by simp [writeStore, hs1]⟩
    | some s =>
      cases hs2 : stringify value with
      | error e => exact ⟨none, by simp [writeStore, hs1, hs2]⟩
      | ok payload =>
        cases hs3 : s.setItemR key payload with
        | error e => exact ⟨none, by simp [writeStore, hs1, hs2, hs3]⟩
        | ok u =>
          exact ⟨some (key, payload), by simp [writeStore, hs1, hs2, hs3]⟩
  · cases hs1 : storageRef env with
    | none => exact ⟨none, by simp [removeStore, hs1]⟩
    | some s =>
      cases hs2 : s.removeItemR key with
      | error e => exact ⟨none, by simp [removeStore, hs1, hs2]⟩
      | ok u => exact ⟨some key, by simp [removeStore, hs1, hs2]⟩

end NotesApp
